import Mathlib

/-!
# Verification of the pprofsvr handler cache and request router

Shallow embedding of the core of `xiateng/pprofsvr` (file `src/unnamed/part_003`,
with `src/main.go` an earlier variant of the same router):

* `getHandler`   — the mtime-validated, double-checked-locking handler cache
  (part_003 lines 114-179), given both a sequential big-step semantics and a
  small-step interleaving semantics (`step`/`exec`) at the granularity of the
  shared-state operations (`os.Stat`, `sync.Map.Load/Delete/Store`, `mu.Lock`,
  `driver.PProf`).
* `cleanupProfilesTick` — one pass of the `cleanupProfiles` eviction sweep
  (part_003 lines 60-72).
* `route`        — the catch-all gin handler registered in `main`
  (part_003 lines 217-256), including Go's `strings.Cut` on the marker `"/ui"`.

External collaborators are modelled at their interface boundary, as the spec
directs: the Renderer (`driver.PProf` plus the nav-HTML wrapper, which leaves
the handler-map keys unchanged) is a function `String → Option Handlers` where
`none` is a construction failure; concrete `http.Handler` values are opaque ids
(`Nat`); `filepath.Join` is an abstract parameter `join`; the filesystem is a
function `String → Option FileInfo` (`none` = `os.Stat` error).  Times are `Int`
nanoseconds, matching Go's `time.Time`/`time.Duration` arithmetic; paths are
ASCII so Go's byte-level string operations coincide with `List Char` ones.
-/

/-- Result of `os.Stat`: the two fields the program reads. -/
structure FileInfo where
  modTime : Int
  isDir : Bool
  deriving DecidableEq, Repr

/-- Handler maps produced by the Renderer: route-suffix keys to opaque
handler ids (`args.Handlers : map[string]http.Handler`). -/
abbrev Handlers := List (String × Nat)

/-- The cache entry type (part_003 lines 47-50).  `time` is the value the code
records: `ph.time = time.Now()` executed inside the `HTTPServer` callback, i.e.
the build timestamp.  `handlers` stands for `ph.args.Handlers`. -/
structure PProfHandler where
  time : Int
  handlers : Handlers
  deriving DecidableEq, Repr

/-- Errors `getHandler` can return: a failed `os.Stat`, or `driver.PProf`
failing to build the handler set. -/
inductive GetErr where
  | statErr
  | buildErr
  deriving DecidableEq, Repr

/-- The filesystem, as observed through `os.Stat`. -/
abbrev FS := String → Option FileInfo

/-- The Renderer collaborator: `driver.PProf` invoked on a profile path,
producing the (nav-wrapped) handler map or failing. -/
abbrev Renderer := String → Option Handlers

/-- The shared `profileMap` table. -/
abbrev Cache := String → Option PProfHandler

/-- `profileMap.Store fp ph`. -/
def mapStore (m : Cache) (fp : String) (ph : PProfHandler) : Cache :=
  fun k => if k = fp then some ph else m k

/-- `profileMap.Delete fp`. -/
def mapDelete (m : Cache) (fp : String) : Cache :=
  fun k => if k = fp then none else m k

/-- `profileTTL = 30 * time.Minute`, in nanoseconds (part_003 line 55). -/
def profileTTL : Int := 30 * 60 * 1000000000

/-- One pass of the `cleanupProfiles` sweep (part_003 lines 63-70): on a tick
at time `now`, every entry with `time.Since(ph.time) > profileTTL` is deleted,
every other entry is kept. -/
def cleanupProfilesTick (now : Int) (m : Cache) : Cache :=
  fun k =>
    match m k with
    | some ph => if now - ph.time > profileTTL then none else some ph
    | none => none

/-- Outcome of one sequential `getHandler` call: the cache afterwards, how many
times the Renderer was invoked during the call, and the returned value. -/
structure GetResult where
  cache : Cache
  renders : Nat
  result : Except GetErr PProfHandler

/-- The section of `getHandler` guarded by `mu` (part_003 lines 131-178):
re-check the map, and on a miss invoke the Renderer, storing the entry only on
success.  The stored `time` is the build time `now`. -/
def lockedGet (render : Renderer) (now : Int) (m : Cache) (fp : String) : GetResult :=
  match m fp with
  | some ph => ⟨m, 0, .ok ph⟩
  | none =>
    match render fp with
    | none => ⟨m, 1, .error .buildErr⟩
    | some hs => ⟨mapStore m fp ⟨now, hs⟩, 1, .ok ⟨now, hs⟩⟩

/-- Sequential big-step semantics of `getHandler` (part_003 lines 114-179):
stat the file; on a hit compare `info.ModTime().After(ph.time)` and either
return the entry or delete it; then take the lock and run `lockedGet`. -/
def getHandler (fs : FS) (render : Renderer) (now : Int) (m : Cache) (fp : String) :
    GetResult :=
  match fs fp with
  | none => ⟨m, 0, .error .statErr⟩
  | some info =>
    match m fp with
    | some ph =>
      if info.modTime > ph.time then
        lockedGet render now (mapDelete m fp) fp
      else ⟨m, 0, .ok ph⟩
    | none => lockedGet render now m fp

/-- First index at which `sep` occurs as a contiguous sublist of `s`
(Go's `strings.Index`, on ASCII). -/
def firstIdx : List Char → List Char → Option Nat
  | s, sep =>
    if sep.isPrefixOf s then some 0
    else
      match s with
      | [] => none
      | _ :: rest => (firstIdx rest sep).map (· + 1)

/-- Go's `strings.Cut s sep`: split around the first occurrence of `sep`;
if `sep` is absent return `(s, "", false)`. -/
def goCut (s sep : String) : String × String × Bool :=
  match firstIdx s.data sep.data with
  | some i => (String.mk (s.data.take i), String.mk (s.data.drop (i + sep.data.length)), true)
  | none => (s, "", false)

/-- Observable responses the gin handler can produce, in the order the code
writes them. -/
inductive Effect where
  | abort500
  | notFound404
  | redirect (loc : String)
  | serveHandler (h : Nat)
  | serveFile
  deriving DecidableEq, Repr

/-- Outcome of routing one request: the cache afterwards, Renderer invocation
count, and the emitted effects. -/
structure RouteResult where
  cache : Cache
  renders : Nat
  effects : List Effect

/-- The catch-all request handler of `main` (part_003 lines 217-256).
`strings.Cut` splits the URL path at the first occurrence of the literal
`"/ui"`.  In the marker branch, a failed `getHandler` aborts with 500, an empty
suffix is normalized to `"/"`, and dispatch is an exact lookup in the handler
map (a miss writes nothing).  In the marker-absent branch — where Go's
`strings.Cut` has returned `before = path` — the path is statted (404 on
error); a directory falls to the file server; a regular file triggers
`getHandler` (500 on failure) and a redirect to `path ++ "/ui/"`, and then,
with no `return` after `c.Redirect`, the file server still runs. -/
def route (fs : FS) (render : Renderer) (join : String → String → String) (now : Int)
    (m : Cache) (repoPath : String) (path : String) : RouteResult :=
  match goCut path "/ui" with
  | (before, after, true) =>
    let g := getHandler fs render now m (join repoPath before)
    match g.result with
    | .error _ => ⟨g.cache, g.renders, [.abort500]⟩
    | .ok ph =>
      let after1 := if after = "" then "/" else after
      match ph.handlers.lookup after1 with
      | some h => ⟨g.cache, g.renders, [.serveHandler h]⟩
      | none => ⟨g.cache, g.renders, []⟩
  | (before, _, false) =>
    match fs (join repoPath path) with
    | none => ⟨m, 0, [.notFound404]⟩
    | some info =>
      if info.isDir then ⟨m, 0, [.serveFile]⟩
      else
        let g := getHandler fs render now m (join repoPath before)
        match g.result with
        | .error _ => ⟨g.cache, g.renders, [.abort500]⟩
        | .ok _ => ⟨g.cache, g.renders, [.redirect (path ++ "/ui/"), .serveFile]⟩

/-!
## Small-step interleaving semantics of `getHandler`

For the concurrency claims, `getHandler` is decomposed into its shared-state
operations.  Each caller is a thread whose program counter walks the body of
part_003 lines 114-179:

* `start`      — about to execute `os.Stat(fp)` (line 116);
* `check1 i`   — about to execute the first `profileMap.Load(fp)` with the
  statted `info.ModTime()` saved in `i` (line 121);
* `del`        — first check found a stale entry, about to `profileMap.Delete`
  (line 125);
* `lockWait`   — about to acquire (or blocked on) `mu.Lock()` (line 131);
* `recheck`    — holding `mu`, about to execute the second `profileMap.Load`
  (line 135);
* `rendering`  — holding `mu`, re-check missed, about to invoke `driver.PProf`
  (line 173), which on success records `ph.time = time.Now()` and the wrapped
  handlers (lines 142-167);
* `storing b`  — holding `mu`, about to `profileMap.Store(fp, b)` (line 177),
  then release `mu` and return;
* `done r`     — the call returned `r`.

After `mu.Lock()` the saved `info` is dead in the source (the re-check and the
build never consult it), so the later program counters carry no locals beyond
the built entry.
-/

/-- Program counter (with live locals) of one `getHandler` caller. -/
inductive TState where
  | start
  | check1 (info : Int)
  | del
  | lockWait
  | recheck
  | rendering
  | storing (built : PProfHandler)
  | done (r : Except GetErr PProfHandler)

/-- One caller: the argument `fp` it was invoked with and its program counter. -/
structure Thread where
  fp : String
  st : TState

/-- The whole system: the filesystem, the shared `profileMap`, who holds `mu`,
how often the Renderer has been invoked per key, the current clock, and every
caller's state.  Threads are indexed by `Nat`; a run touching tids `0..N-1`
models `N` simultaneous callers. -/
structure Sys where
  fs : FS
  cache : Cache
  lock : Option Nat
  renders : String → Nat
  clock : Int
  threads : Nat → Thread

/-- A scheduling decision: let thread `t` take its next shared-state step, let
time pass, or let the environment modify file `k` (setting its mtime to the
current clock). -/
inductive Sched where
  | run (t : Nat)
  | tick
  | touch (k : String)

/-- Replace thread `t`'s program counter, keeping its argument. -/
def setTh (s : Sys) (t : Nat) (st : TState) : Sys :=
  { s with threads := fun u => if u = t then ⟨(s.threads u).fp, st⟩ else s.threads u }

/-- One atomic step of the system under scheduling decision `a`.  A `run t` on
a blocked (`lockWait` with `mu` held) or finished thread changes nothing. -/
def step (render : Renderer) (s : Sys) : Sched → Sys
  | .tick => { s with clock := s.clock + 1 }
  | .touch k =>
    { s with
      fs := fun k1 =>
        if k1 = k then (s.fs k).map (fun i => ⟨s.clock, i.isDir⟩) else s.fs k1 }
  | .run t =>
    let th := s.threads t
    match th.st with
    | .start =>
      match s.fs th.fp with
      | none => setTh s t (.done (.error .statErr))
      | some info => setTh s t (.check1 info.modTime)
    | .check1 info =>
      match s.cache th.fp with
      | none => setTh s t .lockWait
      | some ph =>
        if info > ph.time then setTh s t .del else setTh s t (.done (.ok ph))
    | .del =>
      { setTh s t .lockWait with cache := mapDelete s.cache th.fp }
    | .lockWait =>
      match s.lock with
      | none => { setTh s t .recheck with lock := some t }
      | some _ => s
    | .recheck =>
      match s.cache th.fp with
      | some ph => { setTh s t (.done (.ok ph)) with lock := none }
      | none => setTh s t .rendering
    | .rendering =>
      let s1 :=
        { s with renders := fun k => if k = th.fp then s.renders k + 1 else s.renders k }
      match render th.fp with
      | none => { setTh s1 t (.done (.error .buildErr)) with lock := none }
      | some hs => setTh s1 t (.storing ⟨s.clock, hs⟩)
    | .storing built =>
      { setTh s t (.done (.ok built)) with
        cache := mapStore s.cache th.fp built, lock := none }
    | .done _ => s

/-- Run a whole schedule. -/
def exec (render : Renderer) (s : Sys) : List Sched → Sys :=
  fun acts => acts.foldl (step render) s

/-- Is a scheduling decision a thread step (as opposed to the environment
advancing the clock or touching a file)? -/
def isRun : Sched → Bool
  | .run _ => true
  | _ => false

/-- A cold start: filesystem `fs0`, empty cache, free lock, no Renderer
invocations yet, clock `c0`, and every thread about to call `getHandler K`. -/
def initSys (fs0 : FS) (K : String) (c0 : Int) : Sys :=
  ⟨fs0, fun _ => none, none, fun _ => 0, c0, fun _ => ⟨K, .start⟩⟩

/-!
## Invariant for single-flight construction under a succeeding Renderer

`ThreadInv` records, per caller, what its program counter implies about the
shared state; `SysInv` ties the whole system together.  Parameters: `K` the
requested key, `H` the handler map the Renderer yields for `K`, `M` the
(static) mtime of `K`, `c0` the (static) clock.
-/

/-- Per-thread facts implied by its program counter, on a run where every
caller requests `K`, `K`'s mtime is the constant `M`, and the Renderer answers
`H` for `K`. -/
structure ThreadInv (K : String) (H : Handlers) (M : Int) (s : Sys) (u : Nat) : Prop where
  check1_inv : ∀ info, (s.threads u).st = .check1 info → info = M
  not_del : (s.threads u).st ≠ .del
  recheck_lock : (s.threads u).st = .recheck → s.lock = some u
  rendering_inv : (s.threads u).st = .rendering → s.lock = some u ∧ s.cache K = none
  storing_inv : ∀ built, (s.threads u).st = .storing built →
    s.lock = some u ∧ s.cache K = none ∧ built.handlers = H ∧ M ≤ built.time
  done_inv : ∀ r, (s.threads u).st = .done r → ∃ e, r = .ok e ∧ s.cache K = some e

/-- System-wide invariant: the filesystem and clock are static, the Renderer
has run at most once for `K`, it has run at all exactly when an entry exists or
a store is pending, every cached entry for `K` carries `H` and a build time at
least `M`, and every thread requests `K` and satisfies `ThreadInv`. -/
structure SysInv (fs0 : FS) (K : String) (H : Handlers) (M c0 : Int) (s : Sys) : Prop where
  fs_eq : s.fs = fs0
  clock_eq : s.clock = c0
  renders_le : s.renders K ≤ 1
  renders_zero_iff : s.renders K = 0 ↔
    (s.cache K = none ∧ ∀ u built, (s.threads u).st ≠ .storing built)
  cache_mk : ∀ e, s.cache K = some e → e.handlers = H ∧ M ≤ e.time
  fp_eq : ∀ u, (s.threads u).fp = K
  th_inv : ∀ u, ThreadInv K H M s u


/-!
## Concrete instances

Fixed filesystems, Renderers, caches and schedules used to evaluate the
definitions on concrete inputs.
-/

/-- A sample handler map: the root view and a graph view. -/
def handlersConc : Handlers := [("/", 1), ("/graph", 2)]

/-- A filesystem holding exactly the profile `"k"` with mtime `0`. -/
def fsConc : FS := fun k => if k = "k" then some ⟨0, false⟩ else none

/-- A Renderer succeeding exactly on `"k"`. -/
def renderConc : Renderer := fun k => if k = "k" then some handlersConc else none

/-- A Renderer that always fails (e.g. every file is corrupt). -/
def renderNone : Renderer := fun _ => none

/-- A Renderer that succeeds on every path. -/
def renderAll : Renderer := fun _ => some handlersConc

/-- A filesystem where every path is a regular file with mtime `0`. -/
def fsAllFile : FS := fun _ => some ⟨0, false⟩

/-- An empty filesystem: every `os.Stat` fails. -/
def fsNone : FS := fun _ => none

/-- A filesystem holding `"k"` with mtime `9`. -/
def fsStale : FS := fun k => if k = "k" then some ⟨9, false⟩ else none

/-- The empty `profileMap`. -/
def cacheEmpty : Cache := fun _ => none

/-- An entry built at time `5`. -/
def entryOld : PProfHandler := ⟨5, [("/old", 9)]⟩

/-- A `profileMap` holding `entryOld` under `"k"`. -/
def cacheOld : Cache := fun k => if k = "k" then some entryOld else none

/-- A concrete path-join collaborator (string concatenation). -/
def joinConc : String → String → String := fun a b => a ++ b

/-- Two simultaneous callers of `getHandler "k"`: both pass the first check on
the cold cache, then each in turn acquires `mu`, re-checks (still empty: a
failed build stores nothing) and invokes the failing Renderer. -/
def schedTwoFail : List Sched :=
  [.run 0, .run 1, .run 0, .run 1, .run 0, .run 0, .run 0, .run 1, .run 1, .run 1]

/-- Caller 0 builds the entry for `"k"`; caller 1 then hits the fast path. -/
def schedWarm : List Sched :=
  [.run 0, .run 0, .run 0, .run 0, .run 0, .run 0, .run 1, .run 1]

/-- Caller 1 passes the first check and queues on `mu`; caller 0 builds and
stores the entry (build time `5`); the file is then modified (mtime becomes
`6`, making the entry stale); caller 1 acquires `mu` and reaches the
re-check. -/
def schedStalePre : List Sched :=
  [.run 1, .run 1, .run 0, .run 0, .run 0, .run 0, .run 0, .run 0,
   .tick, .touch "k", .run 1]

/-- The system state right before caller 1's re-check executes. -/
def sysStalePre : Sys := exec renderConc (initSys fsConc "k" 5) schedStalePre

/-- `schedStalePre` followed by caller 1's re-check step. -/
def schedStale : List Sched := schedStalePre ++ [.run 1]

/-! ### Basic lemmas about `setTh` and `step` -/

theorem setTh_fs (s : Sys) (t : Nat) (st : TState) : (setTh s t st).fs = s.fs := rfl

theorem setTh_cache (s : Sys) (t : Nat) (st : TState) : (setTh s t st).cache = s.cache := rfl

theorem setTh_lock (s : Sys) (t : Nat) (st : TState) : (setTh s t st).lock = s.lock := rfl

theorem setTh_renders (s : Sys) (t : Nat) (st : TState) :
    (setTh s t st).renders = s.renders := rfl

theorem setTh_clock (s : Sys) (t : Nat) (st : TState) : (setTh s t st).clock = s.clock := rfl

theorem setTh_fp (s : Sys) (t : Nat) (st : TState) (u : Nat) :
    ((setTh s t st).threads u).fp = (s.threads u).fp := by
  simp only [setTh]
  split <;> rfl

theorem setTh_st_self (s : Sys) (t : Nat) (st : TState) :
    ((setTh s t st).threads t).st = st := by
  simp [setTh]

theorem setTh_st_ne (s : Sys) (t : Nat) (st : TState) (u : Nat) (h : u ≠ t) :
    ((setTh s t st).threads u).st = (s.threads u).st := by
  simp [setTh, h]

theorem step_run_done (render : Renderer) (s : Sys) (t : Nat)
    (r : Except GetErr PProfHandler)
    (h : (s.threads t).st = .done r) : step render s (.run t) = s := by
  simp [step, h]

theorem step_run_start_none (render : Renderer) (s : Sys) (t : Nat)
    (h : (s.threads t).st = .start) (hfs : s.fs (s.threads t).fp = none) :
    step render s (.run t) = setTh s t (.done (.error .statErr)) := by
  simp [step, h, hfs]

theorem step_run_start_some (render : Renderer) (s : Sys) (t : Nat) (i : FileInfo)
    (h : (s.threads t).st = .start) (hfs : s.fs (s.threads t).fp = some i) :
    step render s (.run t) = setTh s t (.check1 i.modTime) := by
  simp [step, h, hfs]

theorem step_run_check1_none (render : Renderer) (s : Sys) (t : Nat) (info : Int)
    (h : (s.threads t).st = .check1 info) (hc : s.cache (s.threads t).fp = none) :
    step render s (.run t) = setTh s t .lockWait := by
  simp [step, h, hc]

theorem step_run_check1_stale (render : Renderer) (s : Sys) (t : Nat) (info : Int)
    (ph : PProfHandler)
    (h : (s.threads t).st = .check1 info) (hc : s.cache (s.threads t).fp = some ph)
    (hgt : info > ph.time) :
    step render s (.run t) = setTh s t .del := by
  simp [step, h, hc, hgt]

theorem step_run_check1_hit (render : Renderer) (s : Sys) (t : Nat) (info : Int)
    (ph : PProfHandler)
    (h : (s.threads t).st = .check1 info) (hc : s.cache (s.threads t).fp = some ph)
    (hle : ¬ info > ph.time) :
    step render s (.run t) = setTh s t (.done (.ok ph)) := by
  simp [step, h, hc, hle]

theorem step_run_del (render : Renderer) (s : Sys) (t : Nat)
    (h : (s.threads t).st = .del) :
    step render s (.run t)
      = { setTh s t .lockWait with cache := mapDelete s.cache (s.threads t).fp } := by
  simp [step, h]

theorem step_run_lock_free (render : Renderer) (s : Sys) (t : Nat)
    (h : (s.threads t).st = .lockWait) (hl : s.lock = none) :
    step render s (.run t) = { setTh s t .recheck with lock := some t } := by
  simp [step, h, hl]

theorem step_run_lock_held (render : Renderer) (s : Sys) (t v : Nat)
    (h : (s.threads t).st = .lockWait) (hl : s.lock = some v) :
    step render s (.run t) = s := by
  simp [step, h, hl]

theorem step_run_recheck_hit (render : Renderer) (s : Sys) (t : Nat) (ph : PProfHandler)
    (h : (s.threads t).st = .recheck) (hc : s.cache (s.threads t).fp = some ph) :
    step render s (.run t) = { setTh s t (.done (.ok ph)) with lock := none } := by
  simp [step, h, hc]

theorem step_run_recheck_miss (render : Renderer) (s : Sys) (t : Nat)
    (h : (s.threads t).st = .recheck) (hc : s.cache (s.threads t).fp = none) :
    step render s (.run t) = setTh s t .rendering := by
  simp [step, h, hc]

theorem step_run_render_fail (render : Renderer) (s : Sys) (t : Nat)
    (h : (s.threads t).st = .rendering) (hr : render (s.threads t).fp = none) :
    step render s (.run t)
      = { setTh
            { s with
              renders := fun k =>
                if k = (s.threads t).fp then s.renders k + 1 else s.renders k }
            t (.done (.error .buildErr)) with
          lock := none } := by
  simp [step, h, hr]

theorem step_run_render_ok (render : Renderer) (s : Sys) (t : Nat) (hs : Handlers)
    (h : (s.threads t).st = .rendering) (hr : render (s.threads t).fp = some hs) :
    step render s (.run t)
      = setTh
          { s with
            renders := fun k =>
              if k = (s.threads t).fp then s.renders k + 1 else s.renders k }
          t (.storing ⟨s.clock, hs⟩) := by
  simp [step, h, hr]

theorem step_run_storing (render : Renderer) (s : Sys) (t : Nat) (built : PProfHandler)
    (h : (s.threads t).st = .storing built) :
    step render s (.run t)
      = { setTh s t (.done (.ok built)) with
          cache := mapStore s.cache (s.threads t).fp built, lock := none } := by
  simp [step, h]

theorem forall_not_storing_setTh (s : Sys) (t : Nat) (X : TState)
    (hX : ∀ b, X ≠ TState.storing b)
    (hold : ∀ b, (s.threads t).st ≠ TState.storing b) :
    (∀ u b, ((setTh s t X).threads u).st ≠ TState.storing b)
      ↔ (∀ u b, (s.threads u).st ≠ TState.storing b) := by
  constructor
  · intro h u b
    by_cases hu : u = t
    · subst hu; exact hold b
    · have h1 := h u b
      rw [setTh_st_ne s t X u hu] at h1
      exact h1
  · intro h u b
    by_cases hu : u = t
    · subst hu; rw [setTh_st_self]; exact hX b
    · rw [setTh_st_ne s t X u hu]; exact h u b

theorem riff_transport (K : String) (s s' : Sys)
    (hr : s'.renders K = s.renders K) (hc : s'.cache K = s.cache K)
    (hstor : (∀ u b, (s'.threads u).st ≠ TState.storing b)
      ↔ (∀ u b, (s.threads u).st ≠ TState.storing b))
    (hold : s.renders K = 0 ↔
      (s.cache K = none ∧ ∀ u b, (s.threads u).st ≠ TState.storing b)) :
    s'.renders K = 0 ↔
      (s'.cache K = none ∧ ∀ u b, (s'.threads u).st ≠ TState.storing b) := by
  rw [hr, hc, hstor]
  exact hold

theorem ThreadInv_transport (K : String) (H : Handlers) (M : Int) (s s' : Sys) (u : Nat)
    (hst : (s'.threads u).st = (s.threads u).st)
    (hlock : s'.lock = s.lock)
    (hcache : s'.cache K = s.cache K)
    (h : ThreadInv K H M s u) : ThreadInv K H M s' u := by
  refine ⟨fun info hh => h.check1_inv info (hst.symm.trans hh), ?_,
    fun hh => ?_, fun hh => ?_, fun b hh => ?_, fun r hh => ?_⟩
  · rw [hst]; exact h.not_del
  · rw [hlock]; exact h.recheck_lock (hst.symm.trans hh)
  · rw [hlock, hcache]; exact h.rendering_inv (hst.symm.trans hh)
  · rw [hlock, hcache]; exact h.storing_inv b (hst.symm.trans hh)
  · rw [hcache]; exact h.done_inv r (hst.symm.trans hh)

theorem ThreadInv_transport_nolock (K : String) (H : Handlers) (M : Int) (s s' : Sys)
    (u : Nat)
    (hst : (s'.threads u).st = (s.threads u).st)
    (hcache : s'.cache K = s.cache K)
    (hlocku : s.lock ≠ some u)
    (h : ThreadInv K H M s u) : ThreadInv K H M s' u := by
  refine ⟨fun info hh => h.check1_inv info (hst.symm.trans hh), ?_,
    fun hh => ?_, fun hh => ?_, fun b hh => ?_, fun r hh => ?_⟩
  · rw [hst]; exact h.not_del
  · exact absurd (h.recheck_lock (hst.symm.trans hh)) hlocku
  · exact absurd (h.rendering_inv (hst.symm.trans hh)).1 hlocku
  · exact absurd (h.storing_inv b (hst.symm.trans hh)).1 hlocku
  · rw [hcache]; exact h.done_inv r (hst.symm.trans hh)

theorem ThreadInv_transport_cache_none (K : String) (H : Handlers) (M : Int)
    (s s' : Sys) (u : Nat)
    (hst : (s'.threads u).st = (s.threads u).st)
    (hcn : s.cache K = none)
    (hlocku : s.lock ≠ some u)
    (h : ThreadInv K H M s u) : ThreadInv K H M s' u := by
  refine ⟨fun info hh => h.check1_inv info (hst.symm.trans hh), ?_,
    fun hh => ?_, fun hh => ?_, fun b hh => ?_, fun r hh => ?_⟩
  · rw [hst]; exact h.not_del
  · exact absurd (h.recheck_lock (hst.symm.trans hh)) hlocku
  · exact absurd (h.rendering_inv (hst.symm.trans hh)).1 hlocku
  · exact absurd (h.storing_inv b (hst.symm.trans hh)).1 hlocku
  · obtain ⟨e, _, hce⟩ := h.done_inv r (hst.symm.trans hh)
    rw [hcn] at hce
    cases hce

theorem ThreadInv_mk_start (K : String) (H : Handlers) (M : Int) (s' : Sys) (u : Nat)
    (h : (s'.threads u).st = .start) : ThreadInv K H M s' u := by
  refine ⟨fun info hh => ?_, ?_, fun hh => ?_, fun hh => ?_, fun b hh => ?_,
    fun r hh => ?_⟩
  · exact absurd (h.symm.trans hh) (by simp)
  · rw [h]; simp
  · exact absurd (h.symm.trans hh) (by simp)
  · exact absurd (h.symm.trans hh) (by simp)
  · exact absurd (h.symm.trans hh) (by simp)
  · exact absurd (h.symm.trans hh) (by simp)

theorem ThreadInv_mk_check1 (K : String) (H : Handlers) (M : Int) (s' : Sys) (u : Nat)
    (info0 : Int) (h : (s'.threads u).st = .check1 info0) (hM : info0 = M) :
    ThreadInv K H M s' u := by
  refine ⟨fun info hh => ?_, ?_, fun hh => ?_, fun hh => ?_, fun b hh => ?_,
    fun r hh => ?_⟩
  · have h1 := h.symm.trans hh
    injection h1 with h2
    rw [← h2]; exact hM
  · rw [h]; simp
  · exact absurd (h.symm.trans hh) (by simp)
  · exact absurd (h.symm.trans hh) (by simp)
  · exact absurd (h.symm.trans hh) (by simp)
  · exact absurd (h.symm.trans hh) (by simp)

theorem ThreadInv_mk_lockWait (K : String) (H : Handlers) (M : Int) (s' : Sys) (u : Nat)
    (h : (s'.threads u).st = .lockWait) : ThreadInv K H M s' u := by
  refine ⟨fun info hh => ?_, ?_, fun hh => ?_, fun hh => ?_, fun b hh => ?_,
    fun r hh => ?_⟩
  · exact absurd (h.symm.trans hh) (by simp)
  · rw [h]; simp
  · exact absurd (h.symm.trans hh) (by simp)
  · exact absurd (h.symm.trans hh) (by simp)
  · exact absurd (h.symm.trans hh) (by simp)
  · exact absurd (h.symm.trans hh) (by simp)

theorem ThreadInv_mk_recheck (K : String) (H : Handlers) (M : Int) (s' : Sys) (u : Nat)
    (h : (s'.threads u).st = .recheck) (hl : s'.lock = some u) : ThreadInv K H M s' u := by
  refine ⟨fun info hh => ?_, ?_, fun hh => hl, fun hh => ?_, fun b hh => ?_,
    fun r hh => ?_⟩
  · exact absurd (h.symm.trans hh) (by simp)
  · rw [h]; simp
  · exact absurd (h.symm.trans hh) (by simp)
  · exact absurd (h.symm.trans hh) (by simp)
  · exact absurd (h.symm.trans hh) (by simp)

theorem ThreadInv_mk_rendering (K : String) (H : Handlers) (M : Int) (s' : Sys) (u : Nat)
    (h : (s'.threads u).st = .rendering) (hl : s'.lock = some u)
    (hcn : s'.cache K = none) : ThreadInv K H M s' u := by
  refine ⟨fun info hh => ?_, ?_, fun hh => ?_, fun hh => ⟨hl, hcn⟩, fun b hh => ?_,
    fun r hh => ?_⟩
  · exact absurd (h.symm.trans hh) (by simp)
  · rw [h]; simp
  · exact absurd (h.symm.trans hh) (by simp)
  · exact absurd (h.symm.trans hh) (by simp)
  · exact absurd (h.symm.trans hh) (by simp)

theorem ThreadInv_mk_storing (K : String) (H : Handlers) (M : Int) (s' : Sys) (u : Nat)
    (built : PProfHandler)
    (h : (s'.threads u).st = .storing built) (hl : s'.lock = some u)
    (hcn : s'.cache K = none) (hbh : built.handlers = H) (hbt : M ≤ built.time) :
    ThreadInv K H M s' u := by
  refine ⟨fun info hh => ?_, ?_, fun hh => ?_, fun hh => ?_, fun b hh => ?_,
    fun r hh => ?_⟩
  · exact absurd (h.symm.trans hh) (by simp)
  · rw [h]; simp
  · exact absurd (h.symm.trans hh) (by simp)
  · exact absurd (h.symm.trans hh) (by simp)
  · have h1 := h.symm.trans hh
    injection h1 with h2
    rw [← h2]
    exact ⟨hl, hcn, hbh, hbt⟩
  · exact absurd (h.symm.trans hh) (by simp)

theorem ThreadInv_mk_done_ok (K : String) (H : Handlers) (M : Int) (s' : Sys) (u : Nat)
    (e : PProfHandler)
    (h : (s'.threads u).st = .done (.ok e)) (hce : s'.cache K = some e) :
    ThreadInv K H M s' u := by
  refine ⟨fun info hh => ?_, ?_, fun hh => ?_, fun hh => ?_, fun b hh => ?_,
    fun r hh => ?_⟩
  · exact absurd (h.symm.trans hh) (by simp)
  · rw [h]; simp
  · exact absurd (h.symm.trans hh) (by simp)
  · exact absurd (h.symm.trans hh) (by simp)
  · exact absurd (h.symm.trans hh) (by simp)
  · have h1 := h.symm.trans hh
    injection h1 with h2
    exact ⟨e, h2.symm, hce⟩

/-- One thread step preserves the invariant, on a run where the filesystem is
static with `K`'s mtime `M ≤ c0` and the Renderer succeeds on `K` with `H`. -/
theorem step_run_preserves (render : Renderer) (fs0 : FS) (K : String) (H : Handlers)
    (M c0 : Int) (i : FileInfo)
    (hrK : render K = some H) (hfsK : fs0 K = some i) (hiM : i.modTime = M)
    (hMc : M ≤ c0) (s : Sys) (t : Nat) (hinv : SysInv fs0 K H M c0 s) :
    SysInv fs0 K H M c0 (step render s (.run t)) := by
  obtain ⟨hfs, hclk, hrle, hriff, hcmk, hfp, hth⟩ := hinv
  have hfpt : (s.threads t).fp = K := hfp t
  cases hst : (s.threads t).st with
  | start =>
    have hfs1 : s.fs (s.threads t).fp = some i := by rw [hfpt, hfs]; exact hfsK
    rw [step_run_start_some render s t i hst hfs1]
    refine ⟨hfs, hclk, hrle, ?_, hcmk, fun u => (setTh_fp s t _ u).trans (hfp u), fun u => ?_⟩
    · exact riff_transport K s _ rfl rfl
        (forall_not_storing_setTh s t _ (fun b => by simp) (fun b => by rw [hst]; simp))
        hriff
    · by_cases hu : u = t
      · subst hu
        exact ThreadInv_mk_check1 K H M _ u i.modTime (setTh_st_self s u _) hiM
      · exact ThreadInv_transport K H M s _ u (setTh_st_ne s t _ u hu) rfl rfl (hth u)
  | check1 info =>
    have hinfoM : info = M := (hth t).check1_inv info hst
    cases hc : s.cache (s.threads t).fp with
    | none =>
      rw [step_run_check1_none render s t info hst hc]
      refine ⟨hfs, hclk, hrle, ?_, hcmk, fun u => (setTh_fp s t _ u).trans (hfp u), fun u => ?_⟩
      · exact riff_transport K s _ rfl rfl
          (forall_not_storing_setTh s t _ (fun b => by simp) (fun b => by rw [hst]; simp))
          hriff
      · by_cases hu : u = t
        · subst hu
          exact ThreadInv_mk_lockWait K H M _ u (setTh_st_self s u _)
        · exact ThreadInv_transport K H M s _ u (setTh_st_ne s t _ u hu) rfl rfl (hth u)
    | some ph =>
      have hphK : s.cache K = some ph := by rw [← hfpt]; exact hc
      have hMph : M ≤ ph.time := (hcmk ph hphK).2
      have hle : ¬ info > ph.time := by omega
      rw [step_run_check1_hit render s t info ph hst hc hle]
      refine ⟨hfs, hclk, hrle, ?_, hcmk, fun u => (setTh_fp s t _ u).trans (hfp u), fun u => ?_⟩
      · exact riff_transport K s _ rfl rfl
          (forall_not_storing_setTh s t _ (fun b => by simp) (fun b => by rw [hst]; simp))
          hriff
      · by_cases hu : u = t
        · subst hu
          exact ThreadInv_mk_done_ok K H M _ u ph (setTh_st_self s u _) hphK
        · exact ThreadInv_transport K H M s _ u (setTh_st_ne s t _ u hu) rfl rfl (hth u)
  | del => exact absurd hst (hth t).not_del
  | lockWait =>
    cases hl : s.lock with
    | some v =>
      rw [step_run_lock_held render s t v hst hl]
      exact ⟨hfs, hclk, hrle, hriff, hcmk, hfp, hth⟩
    | none =>
      rw [step_run_lock_free render s t hst hl]
      refine ⟨hfs, hclk, hrle, ?_, hcmk, fun u => (setTh_fp s t _ u).trans (hfp u), fun u => ?_⟩
      · exact riff_transport K s _ rfl rfl
          (forall_not_storing_setTh s t _ (fun b => by simp) (fun b => by rw [hst]; simp))
          hriff
      · by_cases hu : u = t
        · subst hu
          exact ThreadInv_mk_recheck K H M _ u (setTh_st_self s u _) rfl
        · refine ThreadInv_transport_nolock K H M s _ u (setTh_st_ne s t _ u hu) rfl ?_ (hth u)
          rw [hl]
          simp
  | recheck =>
    have hlockt : s.lock = some t := (hth t).recheck_lock hst
    cases hc : s.cache (s.threads t).fp with
    | some ph =>
      have hphK : s.cache K = some ph := by rw [← hfpt]; exact hc
      rw [step_run_recheck_hit render s t ph hst hc]
      refine ⟨hfs, hclk, hrle, ?_, hcmk, fun u => (setTh_fp s t _ u).trans (hfp u), fun u => ?_⟩
      · exact riff_transport K s _ rfl rfl
          (forall_not_storing_setTh s t _ (fun b => by simp) (fun b => by rw [hst]; simp))
          hriff
      · by_cases hu : u = t
        · subst hu
          exact ThreadInv_mk_done_ok K H M _ u ph (setTh_st_self s u _) hphK
        · refine ThreadInv_transport_nolock K H M s _ u (setTh_st_ne s t _ u hu) rfl ?_ (hth u)
          rw [hlockt]
          intro hcon
          injection hcon with hcon2
          exact hu hcon2.symm
    | none =>
      have hcnK : s.cache K = none := by rw [← hfpt]; exact hc
      rw [step_run_recheck_miss render s t hst hc]
      refine ⟨hfs, hclk, hrle, ?_, hcmk, fun u => (setTh_fp s t _ u).trans (hfp u), fun u => ?_⟩
      · exact riff_transport K s _ rfl rfl
          (forall_not_storing_setTh s t _ (fun b => by simp) (fun b => by rw [hst]; simp))
          hriff
      · by_cases hu : u = t
        · subst hu
          exact ThreadInv_mk_rendering K H M _ u (setTh_st_self s u _) hlockt hcnK
        · exact ThreadInv_transport K H M s _ u (setTh_st_ne s t _ u hu) rfl rfl (hth u)
  | rendering =>
    obtain ⟨hlockt, hcnK⟩ := (hth t).rendering_inv hst
    have hrmatch : render (s.threads t).fp = some H := by rw [hfpt]; exact hrK
    have hnostor : ∀ u b, (s.threads u).st ≠ TState.storing b := by
      intro u b hub
      have hlu := ((hth u).storing_inv b hub).1
      rw [hlockt] at hlu
      injection hlu with hlu2
      have hut : u = t := hlu2.symm
      rw [hut, hst] at hub
      simp at hub
    have hr0 : s.renders K = 0 := hriff.mpr ⟨hcnK, hnostor⟩
    rw [step_run_render_ok render s t H hst hrmatch]
    have hrK1 :
        (setTh
          { s with
            renders := fun k =>
              if k = (s.threads t).fp then s.renders k + 1 else s.renders k }
          t (.storing ⟨s.clock, H⟩)).renders K = s.renders K + 1 := by
      show (if K = (s.threads t).fp then s.renders K + 1 else s.renders K) = s.renders K + 1
      rw [hfpt]
      simp
    refine ⟨hfs, hclk, ?_, ?_, hcmk, fun u => (setTh_fp _ t _ u).trans (hfp u), fun u => ?_⟩
    · rw [hrK1, hr0]
    · constructor
      · intro h1
        rw [hrK1, hr0] at h1
        simp at h1
      · intro hrhs
        exfalso
        exact hrhs.2 t ⟨s.clock, H⟩ (setTh_st_self _ t _)
    · by_cases hu : u = t
      · subst hu
        refine ThreadInv_mk_storing K H M _ u ⟨s.clock, H⟩ (setTh_st_self _ u _) hlockt hcnK rfl ?_
        show M ≤ s.clock
        rw [hclk]
        exact hMc
      · exact ThreadInv_transport K H M s _ u (setTh_st_ne _ t _ u hu) rfl rfl (hth u)
  | storing built =>
    obtain ⟨hlockt, hcnK, hbh, hbt⟩ := (hth t).storing_inv built hst
    rw [step_run_storing render s t built hst]
    have hsc :
        ({ setTh s t (.done (.ok built)) with
            cache := mapStore s.cache (s.threads t).fp built, lock := none }).cache K
          = some built := by
      show mapStore s.cache (s.threads t).fp built K = some built
      rw [hfpt]
      simp [mapStore]
    have hrne : s.renders K ≠ 0 := by
      intro h0
      exact (hriff.mp h0).2 t built hst
    have hr1 : s.renders K = 1 := by omega
    refine ⟨hfs, hclk, hrle, ?_, ?_, fun u => (setTh_fp s t _ u).trans (hfp u), fun u => ?_⟩
    · constructor
      · intro h1
        exact absurd h1 hrne
      · intro hrhs
        rw [hsc] at hrhs
        cases hrhs.1
    · intro e he
      rw [hsc] at he
      injection he with he2
      rw [← he2]
      exact ⟨hbh, hbt⟩
    · by_cases hu : u = t
      · subst hu
        exact ThreadInv_mk_done_ok K H M _ u built (setTh_st_self s u _) hsc
      · refine ThreadInv_transport_cache_none K H M s _ u (setTh_st_ne s t _ u hu) hcnK ?_ (hth u)
        rw [hlockt]
        intro hcon
        injection hcon with hcon2
        exact hu hcon2.symm
  | done r =>
    rw [step_run_done render s t r hst]
    exact ⟨hfs, hclk, hrle, hriff, hcmk, hfp, hth⟩

/-- The invariant is preserved by any schedule of thread steps. -/
theorem exec_preserves (render : Renderer) (fs0 : FS) (K : String) (H : Handlers)
    (M c0 : Int) (i : FileInfo)
    (hrK : render K = some H) (hfsK : fs0 K = some i) (hiM : i.modTime = M)
    (hMc : M ≤ c0) :
    ∀ acts : List Sched, acts.all isRun = true → ∀ s : Sys,
      SysInv fs0 K H M c0 s → SysInv fs0 K H M c0 (exec render s acts) := by
  intro acts
  induction acts with
  | nil => intro _ s h; exact h
  | cons a l ih =>
    intro hall s h
    rw [List.all_cons, Bool.and_eq_true] at hall
    obtain ⟨ha, hl⟩ := hall
    cases a with
    | run t =>
      exact ih hl _ (step_run_preserves render fs0 K H M c0 i hrK hfsK hiM hMc s t h)
    | tick => simp [isRun] at ha
    | touch k => simp [isRun] at ha

/-- A cold start satisfies the invariant. -/
theorem initSys_inv (fs0 : FS) (K : String) (H : Handlers) (M c0 : Int) :
    SysInv fs0 K H M c0 (initSys fs0 K c0) := by
  refine ⟨rfl, rfl, Nat.zero_le 1, ?_, ?_, fun u => rfl, fun u => ?_⟩
  · constructor
    · intro _
      refine ⟨rfl, fun u b hcon => ?_⟩
      exact absurd hcon (by simp [initSys])
    · intro _
      rfl
  · intro e he
    cases he
  · exact ThreadInv_mk_start K H M _ u rfl

/-!
## Claim C1 — single-flight construction
-/

/-- **C1 counterexample.**  Two simultaneous callers request the
never-before-built key `"k"` and the Renderer fails for it: both pass the cold
first check before either takes `mu`; the first invokes the Renderer, stores
nothing, and the second — re-checking a still-empty map — invokes the Renderer
again.  The Renderer runs twice, not exactly once, refuting the claim for a
failing build (both callers do observe the same error). -/
theorem two_callers_two_renders_on_failure :
    (exec renderNone (initSys fsConc "k" 5) schedTwoFail).renders "k" = 2 ∧
    ((exec renderNone (initSys fsConc "k" 5) schedTwoFail).threads 0).st
      = .done (.error .buildErr) ∧
    ((exec renderNone (initSys fsConc "k" 5) schedTwoFail).threads 1).st
      = .done (.error .buildErr) :=
  ⟨rfl, rfl, rfl⟩

/-- **C1 (amended).**  When the Renderer succeeds for `K` (and the file is not
modified during the run, its mtime not in the clock's future), the guarantee
holds for every interleaving of any number of simultaneous callers on a cold
cache: once any caller has completed, the Renderer has been invoked exactly
once for `K`, and all completed callers observe the same successful result
carrying the rendered handler set.  (On Renderer failure the counterexample
shows the Renderer can instead run once per caller.) -/
theorem singleflight_exactly_once_on_success
    (render : Renderer) (fs1 : FS) (K : String) (H : Handlers) (M c0 : Int)
    (i : FileInfo)
    (hrK : render K = some H) (hfsK : fs1 K = some i) (hiM : i.modTime = M)
    (hMc : M ≤ c0)
    (acts : List Sched) (hall : acts.all isRun = true)
    (t u : Nat) (r ru : Except GetErr PProfHandler)
    (ht : ((exec render (initSys fs1 K c0) acts).threads t).st = .done r)
    (hu : ((exec render (initSys fs1 K c0) acts).threads u).st = .done ru) :
    (exec render (initSys fs1 K c0) acts).renders K = 1 ∧ r = ru ∧
      ∃ e, r = .ok e ∧ e.handlers = H := by
  have hinv := exec_preserves render fs1 K H M c0 i hrK hfsK hiM hMc acts hall _
    (initSys_inv fs1 K H M c0)
  obtain ⟨e1, hre1, hce1⟩ := (hinv.th_inv t).done_inv r ht
  obtain ⟨e2, hre2, hce2⟩ := (hinv.th_inv u).done_inv ru hu
  have he : e1 = e2 := by
    rw [hce1] at hce2
    injection hce2
  have hr1 : (exec render (initSys fs1 K c0) acts).renders K = 1 := by
    have hne : (exec render (initSys fs1 K c0) acts).renders K ≠ 0 := by
      intro h0
      obtain ⟨hcn, _⟩ := hinv.renders_zero_iff.mp h0
      rw [hcn] at hce1
      cases hce1
    have hle := hinv.renders_le
    omega
  refine ⟨hr1, ?_, e1, hre1, (hinv.cache_mk e1 hce1).1⟩
  rw [hre1, hre2, he]

/-- **C1 witness.**  The amended theorem applied to a concrete warm-up run:
caller 0 builds `"k"`, caller 1 then takes the fast path; both finish with the
entry built at time `5` carrying `handlersConc`. -/
theorem singleflight_exactly_once_on_success_witness :
    (exec renderConc (initSys fsConc "k" 5) schedWarm).renders "k" = 1 ∧
    (Except.ok ⟨5, handlersConc⟩ : Except GetErr PProfHandler) = .ok ⟨5, handlersConc⟩ ∧
    ∃ e : PProfHandler,
      (Except.ok ⟨5, handlersConc⟩ : Except GetErr PProfHandler) = .ok e ∧
      e.handlers = handlersConc :=
  singleflight_exactly_once_on_success renderConc fsConc "k" handlersConc 0 5
    ⟨0, false⟩ rfl rfl rfl (by decide) schedWarm rfl 0 1
    (.ok ⟨5, handlersConc⟩) (.ok ⟨5, handlersConc⟩) rfl rfl

/-!
## Claim C4 — the re-check under the lock
-/

/-- **C4 counterexample.**  Caller 1 stats `"k"`, misses the cold cache, and
queues on `mu`; caller 0 builds and stores the entry with build time `5`; the
file is then modified (mtime `6`); caller 1's re-check finds the entry — now
stale by the code's own `ModTime().After(ph.time)` test — and returns it with
no validation.  The re-check hands back a stale entry, refuting the claim. -/
theorem recheck_returns_stale_entry_example :
    (sysStalePre.threads 1).st = .recheck ∧
    sysStalePre.cache "k" = some ⟨5, handlersConc⟩ ∧
    sysStalePre.fs "k" = some ⟨6, false⟩ ∧
    ((5 : Int) < 6) ∧
    ((exec renderConc (initSys fsConc "k" 5) schedStale).threads 1).st
      = .done (.ok ⟨5, handlersConc⟩) :=
  ⟨rfl, rfl, rfl, by decide, rfl⟩

/-- **C4 (amended).**  The re-check performed under the construction lock
returns any entry it finds without re-validating the modification time: even
when the file's current mtime strictly exceeds the entry's recorded time (the
entry is stale), the caller completes with that entry and releases the lock. -/
theorem recheck_returns_without_validation (render : Renderer) (s : Sys) (t : Nat)
    (e : PProfHandler) (i : FileInfo)
    (hst : (s.threads t).st = .recheck)
    (hc : s.cache (s.threads t).fp = some e)
    (_hi : s.fs (s.threads t).fp = some i)
    (_hstale : e.time < i.modTime) :
    ((step render s (.run t)).threads t).st = .done (.ok e) ∧
    (step render s (.run t)).lock = none := by
  rw [step_run_recheck_hit render s t e hst hc]
  exact ⟨setTh_st_self s t _, rfl⟩

/-- **C4 witness.**  The amended theorem applied at the concrete pre-state of
the counterexample run: caller 1 is at the re-check, the cached entry has build
time `5`, the file's mtime is `6`. -/
theorem recheck_returns_without_validation_witness :
    ((step renderConc sysStalePre (.run 1)).threads 1).st
      = .done (.ok ⟨5, handlersConc⟩) ∧
    (step renderConc sysStalePre (.run 1)).lock = none :=
  recheck_returns_without_validation renderConc sysStalePre 1 ⟨5, handlersConc⟩
    ⟨6, false⟩ rfl rfl rfl (by decide)

/-!
## Claim C2 — mtime-based reuse and invalidation
-/

/-- **C2.**  With an entry cached for `fp` and the file present, `getHandler`
reuses the entry — unchanged cache, no Renderer invocation — exactly when the
file's mtime is not newer than the entry's recorded (build) time; when the
mtime is newer, the call performs exactly one rebuild and the old handler set
is discarded: the cache then maps `fp` to the freshly built entry, which the
call returns. -/
theorem getHandler_reuse_iff_not_modified (fs : FS) (render : Renderer) (now : Int)
    (m : Cache) (fp : String) (info : FileInfo) (ph : PProfHandler) (hs : Handlers)
    (hstat : fs fp = some info) (hhit : m fp = some ph) (hrender : render fp = some hs) :
    (¬ info.modTime > ph.time → getHandler fs render now m fp = ⟨m, 0, .ok ph⟩) ∧
    (info.modTime > ph.time →
      (getHandler fs render now m fp).renders = 1 ∧
      (getHandler fs render now m fp).result = .ok ⟨now, hs⟩ ∧
      (getHandler fs render now m fp).cache fp = some ⟨now, hs⟩) := by
  constructor
  · intro hle
    simp only [getHandler, hstat, hhit, if_neg hle]
  · intro hgt
    have hdel : mapDelete m fp fp = none := by simp [mapDelete]
    simp only [getHandler, lockedGet, hstat, hhit, if_pos hgt, hdel, hrender]
    simp [mapStore]

/-- **C2 witness.**  The theorem at a concrete stale instance: entry built at
time `5`, file mtime `9`, rebuild at time `20`. -/
theorem getHandler_reuse_iff_not_modified_witness :
    (¬ (9 : Int) > 5 →
      getHandler fsStale renderConc 20 cacheOld "k" = ⟨cacheOld, 0, .ok entryOld⟩) ∧
    ((9 : Int) > 5 →
      (getHandler fsStale renderConc 20 cacheOld "k").renders = 1 ∧
      (getHandler fsStale renderConc 20 cacheOld "k").result = .ok ⟨20, handlersConc⟩ ∧
      (getHandler fsStale renderConc 20 cacheOld "k").cache "k"
        = some ⟨20, handlersConc⟩) :=
  getHandler_reuse_iff_not_modified fsStale renderConc 20 cacheOld "k" ⟨9, false⟩
    entryOld handlersConc rfl rfl rfl

/-!
## Claim C5 — Renderer failure
-/

/-- **C5 counterexample.**  A stale entry (build time `5`, file mtime `9`) plus
a failing Renderer: the failed `getHandler` call returns the build error and
stores nothing, but the cache table is *not* unchanged — the stale entry was
deleted before construction, so the table went from holding `entryOld` under
`"k"` to holding nothing. -/
theorem failed_build_deletes_stale_entry :
    (getHandler fsStale renderNone 20 cacheOld "k").result = .error .buildErr ∧
    cacheOld "k" = some entryOld ∧
    (getHandler fsStale renderNone 20 cacheOld "k").cache "k" = none :=
  ⟨rfl, rfl, rfl⟩

/-- **C5 (amended).**  When the call reaches construction (cold miss, or a
stale entry — which is first discarded) and the Renderer fails, `getHandler`
returns the error and stores nothing: afterwards no entry exists for the key,
every other key is untouched, and a subsequent call for the same key attempts
the build again (one further Renderer invocation). -/
theorem build_failure_leaves_no_entry_and_retries (fs : FS) (render : Renderer)
    (now now2 : Int) (m : Cache) (fp : String) (info : FileInfo)
    (hstat : fs fp = some info) (hfail : render fp = none)
    (hmiss : ∀ ph, m fp = some ph → info.modTime > ph.time) :
    (getHandler fs render now m fp).result = .error .buildErr ∧
    (getHandler fs render now m fp).renders = 1 ∧
    (getHandler fs render now m fp).cache fp = none ∧
    (∀ k, k ≠ fp → (getHandler fs render now m fp).cache k = m k) ∧
    (getHandler fs render now2 (getHandler fs render now m fp).cache fp).renders = 1 := by
  cases hm : m fp with
  | none =>
    have hred : getHandler fs render now m fp = ⟨m, 1, .error .buildErr⟩ := by
      simp only [getHandler, lockedGet, hstat, hm, hfail]
    rw [hred]
    refine ⟨rfl, rfl, hm, fun k hk => rfl, ?_⟩
    simp only [getHandler, lockedGet, hstat, hm, hfail]
  | some ph =>
    have hgt := hmiss ph hm
    have hdel : mapDelete m fp fp = none := by simp [mapDelete]
    have hred : getHandler fs render now m fp = ⟨mapDelete m fp, 1, .error .buildErr⟩ := by
      simp only [getHandler, lockedGet, hstat, hm, if_pos hgt, hdel, hfail]
    rw [hred]
    refine ⟨rfl, rfl, hdel, fun k hk => by simp [mapDelete, hk], ?_⟩
    simp only [getHandler, lockedGet, hstat, hdel, hfail]

/-- **C5 witness.**  The amended theorem at the concrete stale instance of the
counterexample, with the retry at time `30`. -/
theorem build_failure_leaves_no_entry_and_retries_witness :
    (getHandler fsStale renderNone 20 cacheOld "k").result = .error .buildErr ∧
    (getHandler fsStale renderNone 20 cacheOld "k").renders = 1 ∧
    (getHandler fsStale renderNone 20 cacheOld "k").cache "k" = none ∧
    (∀ k, k ≠ "k" → (getHandler fsStale renderNone 20 cacheOld "k").cache k = cacheOld k) ∧
    (getHandler fsStale renderNone 30
      (getHandler fsStale renderNone 20 cacheOld "k").cache "k").renders = 1 :=
  build_failure_leaves_no_entry_and_retries fsStale renderNone 20 30 cacheOld "k"
    ⟨9, false⟩ rfl rfl
    (fun ph h => by
      injection h with h2
      rw [← h2]
      decide)

/-!
## Claim C6 — the eviction sweep
-/

/-- **C6.**  After one `cleanupProfiles` sweep at time `now`, an entry whose
age `now - ph.time` exceeds the 30-minute `profileTTL` is absent from the
cache, and an entry whose age does not exceed it is still present. -/
theorem cleanup_sweep_ttl (m : Cache) (now : Int) (k : String) (ph : PProfHandler)
    (h : m k = some ph) :
    (now - ph.time > profileTTL → cleanupProfilesTick now m k = none) ∧
    (¬ now - ph.time > profileTTL → cleanupProfilesTick now m k = some ph) := by
  constructor
  · intro hgt
    simp only [cleanupProfilesTick, h, if_pos hgt]
  · intro hle
    simp only [cleanupProfilesTick, h, if_neg hle]

/-- **C6 witness.**  The theorem at the concrete cache holding an entry built
at time `5`, swept at time `profileTTL + 6` (age `profileTTL + 1`). -/
theorem cleanup_sweep_ttl_witness :
    (profileTTL + 6 - 5 > profileTTL →
      cleanupProfilesTick (profileTTL + 6) cacheOld "k" = none) ∧
    (¬ profileTTL + 6 - 5 > profileTTL →
      cleanupProfilesTick (profileTTL + 6) cacheOld "k" = some entryOld) :=
  cleanup_sweep_ttl cacheOld (profileTTL + 6) "k" entryOld rfl

/-!
## Routing claims
-/

/-- Go's `strings.Cut` on a missed separator returns the whole string, the
empty string and `false`. -/
theorem goCut_eq_of_not_found (s sep : String) (h : (goCut s sep).2.2 = false) :
    goCut s sep = (s, "", false) := by
  cases hf : firstIdx s.data sep.data with
  | some i =>
    exfalso
    unfold goCut at h
    rw [hf] at h
    simp at h
  | none =>
    unfold goCut
    rw [hf]

/-- **C3.**  Routing `"/report.prof/ui/graph"` splits at the marker into
resourcePath `"/report.prof"` and subRoute `"/graph"`, and routing
`"/report.prof/ui"` leaves subRoute `""`, which is normalized to `"/"` before
the handler lookup: on a Renderer producing `handlersConc`, the first request
dispatches to the `"/graph"` handler and the second to the `"/"` handler. -/
theorem route_marker_split_examples :
    goCut "/report.prof/ui/graph" "/ui" = ("/report.prof", "/graph", true) ∧
    goCut "/report.prof/ui" "/ui" = ("/report.prof", "", true) ∧
    (route fsAllFile renderAll joinConc 5 cacheEmpty "" "/report.prof/ui/graph").effects
      = [.serveHandler 2] ∧
    (route fsAllFile renderAll joinConc 5 cacheEmpty "" "/report.prof/ui").effects
      = [.serveHandler 1] :=
  ⟨by decide, by decide, rfl, rfl⟩

/-- **C9.**  Marker detection is a plain substring cut, not a path-segment
match: `"/uint.prof"` contains the three characters `"/ui"` inside its first
segment, so `strings.Cut` splits it into resource `""` and subRoute
`"nt.prof"`, and the request is dispatched through the cache branch (here a
500 from the failed stat of the empty resource) — while a genuinely
marker-free path on the same empty filesystem takes the file-serving branch
and yields 404. -/
theorem marker_substring_cut_uint_prof :
    goCut "/uint.prof" "/ui" = ("", "nt.prof", true) ∧
    (route fsNone renderAll joinConc 5 cacheEmpty "" "/uint.prof").effects
      = [.abort500] ∧
    (route fsNone renderAll joinConc 5 cacheEmpty "" "/report.prof").effects
      = [.notFound404] :=
  ⟨by decide, rfl, rfl⟩

/-- **C7.**  For a marker-free request path resolving to an existing regular
file, the router calls `getHandler` on the joined path and then — if the build
succeeded — responds with a redirect to the request path with `"/ui/"`
appended (the file server running afterwards); if the build failed it responds
with an internal error (500) instead of redirecting. -/
theorem plain_file_build_then_redirect (fs : FS) (render : Renderer)
    (join : String → String → String) (now : Int) (m : Cache) (repo path : String)
    (info : FileInfo)
    (hcut : (goCut path "/ui").2.2 = false)
    (hstat : fs (join repo path) = some info)
    (hdir : info.isDir = false) :
    route fs render join now m repo path
      = match (getHandler fs render now m (join repo path)).result with
        | .ok _ =>
          ⟨(getHandler fs render now m (join repo path)).cache,
           (getHandler fs render now m (join repo path)).renders,
           [.redirect (path ++ "/ui/"), .serveFile]⟩
        | .error _ =>
          ⟨(getHandler fs render now m (join repo path)).cache,
           (getHandler fs render now m (join repo path)).renders,
           [.abort500]⟩ := by
  have hc := goCut_eq_of_not_found path "/ui" hcut
  cases hres : (getHandler fs render now m (join repo path)).result with
  | ok ph => simp only [route, hc, hstat, hdir, hres, Bool.false_eq_true, if_false]
  | error e => simp only [route, hc, hstat, hdir, hres, Bool.false_eq_true, if_false]

/-- **C7 witness.**  The theorem at the marker-free path `"/report.prof"` on a
filesystem of regular files with an always-succeeding Renderer: the response is
the redirect to `"/report.prof/ui/"` (with the file-server fall-through). -/
theorem plain_file_build_then_redirect_witness :
    route fsAllFile renderAll joinConc 5 cacheEmpty "" "/report.prof"
      = ⟨(getHandler fsAllFile renderAll 5 cacheEmpty (joinConc "" "/report.prof")).cache,
         (getHandler fsAllFile renderAll 5 cacheEmpty (joinConc "" "/report.prof")).renders,
         [.redirect ("/report.prof" ++ "/ui/"), .serveFile]⟩ :=
  plain_file_build_then_redirect fsAllFile renderAll joinConc 5 cacheEmpty ""
    "/report.prof" ⟨0, false⟩ rfl rfl rfl

/-- **C10.**  In the marker-absent branch there is no `return` after the
redirect: when the stat succeeds, a directory goes straight to the raw file
server, and a regular file whose build succeeded gets the redirect *followed
by* the raw file server on the same request. -/
theorem redirect_falls_through_to_fileserver (fs : FS) (render : Renderer)
    (join : String → String → String) (now : Int) (m : Cache) (repo path : String)
    (info : FileInfo)
    (hcut : (goCut path "/ui").2.2 = false)
    (hstat : fs (join repo path) = some info) :
    (info.isDir = true → route fs render join now m repo path = ⟨m, 0, [.serveFile]⟩) ∧
    (∀ ph, info.isDir = false →
      (getHandler fs render now m (join repo path)).result = .ok ph →
      (route fs render join now m repo path).effects
        = [.redirect (path ++ "/ui/"), .serveFile]) := by
  have hc := goCut_eq_of_not_found path "/ui" hcut
  constructor
  · intro hd
    simp only [route, hc, hstat, hd, if_true]
  · intro ph hd hok
    simp only [route, hc, hstat, hd, Bool.false_eq_true, if_false, hok]

/-- **C10 witness.**  The theorem at the concrete regular file
`"/report.prof"`: the effects are the redirect followed by the file server. -/
theorem redirect_falls_through_to_fileserver_witness :
    ((false : Bool) = true →
      route fsAllFile renderAll joinConc 5 cacheEmpty "" "/report.prof"
        = ⟨cacheEmpty, 0, [.serveFile]⟩) ∧
    (∀ ph, (false : Bool) = false →
      (getHandler fsAllFile renderAll 5 cacheEmpty
        (joinConc "" "/report.prof")).result = .ok ph →
      (route fsAllFile renderAll joinConc 5 cacheEmpty "" "/report.prof").effects
        = [.redirect ("/report.prof" ++ "/ui/"), .serveFile]) :=
  redirect_falls_through_to_fileserver fsAllFile renderAll joinConc 5 cacheEmpty ""
    "/report.prof" ⟨0, false⟩ rfl rfl

/-!
## Claim C8 — sub-route normalization
-/

/-- **C8 counterexample.**  Two `after` values that differ only by a trailing
slash — `"/graph"` and `"/graph/"` — do not dispatch alike: against a handler
map with key `"/graph"`, the first dispatches to its handler and the second
misses (nothing is written).  The code performs no slash normalization,
refuting the claim. -/
theorem trailing_slash_changes_dispatch :
    goCut "/a.prof/ui/graph" "/ui" = ("/a.prof", "/graph", true) ∧
    goCut "/a.prof/ui/graph/" "/ui" = ("/a.prof", "/graph/", true) ∧
    (route fsAllFile renderAll joinConc 5 cacheEmpty "" "/a.prof/ui/graph").effects
      = [.serveHandler 2] ∧
    (route fsAllFile renderAll joinConc 5 cacheEmpty "" "/a.prof/ui/graph/").effects
      = [] :=
  ⟨by decide, by decide, rfl, rfl⟩

/-- **C8 (amended).**  The only normalization applied to the sub-route suffix
`after` is replacing the empty string by `"/"`; the dispatch is then an exact
string lookup in the Renderer-produced mapping, so `after` values differing by
repeated or trailing slashes are distinct keys and need not dispatch alike. -/
theorem subroute_lookup_exact_after_empty_normalization (fs : FS) (render : Renderer)
    (join : String → String → String) (now : Int) (m : Cache)
    (repo path b a : String) (ph : PProfHandler) (h : Nat)
    (hcut : goCut path "/ui" = (b, a, true))
    (hok : (getHandler fs render now m (join repo b)).result = .ok ph) :
    (route fs render join now m repo path).effects = [.serveHandler h]
      ↔ ph.handlers.lookup (if a = "" then "/" else a) = some h := by
  cases hl : ph.handlers.lookup (if a = "" then "/" else a) with
  | some h0 =>
    simp only [route, hcut, hok, hl]
    simp
  | none =>
    simp only [route, hcut, hok, hl]
    simp

/-- **C8 witness.**  The amended theorem at the concrete request
`"/a.prof/ui/graph"`: dispatch to handler `2` is equivalent to the exact
lookup of `"/graph"`. -/
theorem subroute_lookup_exact_after_empty_normalization_witness :
    (route fsAllFile renderAll joinConc 5 cacheEmpty "" "/a.prof/ui/graph").effects
      = [.serveHandler 2]
      ↔ (PProfHandler.mk 5 handlersConc).handlers.lookup
          (if "/graph" = "" then "/" else "/graph") = some 2 :=
  subroute_lookup_exact_after_empty_normalization fsAllFile renderAll joinConc 5
    cacheEmpty "" "/a.prof/ui/graph" "/a.prof" "/graph" ⟨5, handlersConc⟩ 2
    (by decide) rfl
